import Mathlib

/-!
Verification of the page-compositing engine of `generate_page.py`
(kidsbook-factory).

Modelling conventions used throughout this file:

* Python `int` values are embedded as `Nat`/`Int`; `int(x)` applied to a
  float is truncation toward zero (`pyTrunc`); `//` on non-negative ints is
  `Nat` division.
* IEEE-754 double arithmetic is embedded as exact rational arithmetic
  (`ℚ`).  Every place where the source's float computation could differ
  from the exact rational value is a sub-ulp rounding effect that none of
  the statements below depend on; the trigonometric/irrational functions
  `math.sin` and `math.sqrt` are embedded as fixed computable rational
  approximations (`sinQ`, `sqrtQ`), and all theorems proved about them use
  only properties shared with the IEEE functions (determinism,
  `sqrt 0 = 0`, `sqrt x > 0` for `x ≥ 1/2`).
* Python exceptions are embedded with `Except PyErr`; a `try/except`
  becomes a `match` on the `Except` value.
* CPython's global Mersenne-Twister generator (`random.seed`,
  `random.choice`, `random.randint`) is embedded as an explicitly threaded
  state `Mt` with a deterministic transition function.  The concrete
  generator chosen is a 64-bit LCG stand-in: every theorem below depends
  only on the generator being a pure function of its state and on
  `random.seed` replacing the state, never on the particular values drawn.
* Strings are embedded as `List Char`.
-/

/-- Python `int()` applied to a float: truncation toward zero.
`Rat.num / Rat.den` with `Int.div` (which truncates toward zero) is exactly
that. -/
def pyTrunc (q : ℚ) : ℤ :=
  Int.tdiv q.num (q.den : ℤ)

/-- Exceptions that the embedded code can raise. -/
inductive PyErr where
  | fileNotFound
  | unidentifiedImage
  | valueError
  | zeroDivision
  | attributeError
  deriving DecidableEq, Repr

/-- Python `//` on two non-negative machine ints, raising
`ZeroDivisionError` on a zero divisor (`a // 0` raises in CPython). -/
def pyDiv (a b : ℕ) : Except PyErr ℕ :=
  if b = 0 then .error .zeroDivision else .ok (a / b)

/-- The exact value of the IEEE-754 double `math.pi`
(`884279719003555 * 2 ^ (-48)`). -/
def piQ : ℚ := 884279719003555 / 281474976710656

/-- Computable stand-in for `math.sqrt` on rationals: fixed-point
`Nat.sqrt` at 10^-6 precision.  The theorems below use only that it is a
function, that `sqrtQ 0 = 0` and that `sqrtQ q > 0` for `q ≥ 1/2` —
properties the IEEE-754 `sqrt` shares. -/
def sqrtQ (q : ℚ) : ℚ :=
  if q ≤ 0 then 0 else (Nat.sqrt ⌊q * 10 ^ 12⌋₊ : ℚ) / 10 ^ 6

/-- Computable stand-in for `math.sin`: range reduction by `2 * piQ`
followed by the degree-11 Taylor polynomial.  No theorem below depends on
its values, only on it being a fixed function. -/
def sinQ (q : ℚ) : ℚ :=
  let k : ℤ := ⌊q / (2 * piQ) + 1 / 2⌋
  let x := q - (k : ℚ) * (2 * piQ)
  x - x ^ 3 / 6 + x ^ 5 / 120 - x ^ 7 / 5040 + x ^ 9 / 362880 - x ^ 11 / 39916800

/-- State of CPython's global `random` generator (see the header: a
deterministic stand-in for the Mersenne Twister). -/
abbrev Mt : Type := ℕ

/-- `random.seed(n)`: the global generator state is replaced by a value
derived from `n` alone; the previous state is discarded. -/
def mtSeed (n : ℕ) : Mt :=
  (n + 11400714819323198485) % 2 ^ 64

/-- One draw from the generator: returns the drawn word and the new
state. -/
def mtNext (s : Mt) : ℕ × Mt :=
  let s' := (s * 6364136223846793005 + 1442695040888963407) % 2 ^ 64
  (s', s')

/-- `random.choice(l)`: draws one word and indexes the (non-empty) list;
`dflt` is never reached for the non-empty pools used by the source. -/
def randChoice {α : Type} (s : Mt) (l : List α) (dflt : α) : α × Mt :=
  let (v, s') := mtNext s
  (l.getD (v % l.length) dflt, s')

/-- `random.randint(lo, hi)` (inclusive bounds, `lo ≤ hi` in all call
sites). -/
def randInt (s : Mt) (lo hi : ℕ) : ℕ × Mt :=
  let (v, s') := mtNext s
  (lo + v % (hi - lo + 1), s')

/-- `PAGE_WIDTH = int(6.25 * 300)` (the float product is exactly
`1875.0`). -/
def PAGE_WIDTH : ℕ := 1875

/-- `PAGE_HEIGHT = int(9.25 * 300)` (exactly `2775.0`). -/
def PAGE_HEIGHT : ℕ := 2775

/-- `HALF_HEIGHT = PAGE_HEIGHT // 2`. -/
def HALF_HEIGHT : ℕ := PAGE_HEIGHT / 2

/-- `WAVE_HEIGHT = 25`. -/
def WAVE_HEIGHT : ℕ := 25

/-- `DEFAULT_WAVE_COUNT = 8`. -/
def DEFAULT_WAVE_COUNT : ℕ := 8

/-- The three decorative edge styles (`EDGE_TYPES = ["wave", "scallop",
"zigzag"]`). -/
inductive EdgeKind where
  | wave
  | scallop
  | zigzag
  deriving DecidableEq, Repr

/-- `EDGE_TYPES`. -/
def EDGE_TYPES : List EdgeKind := [.wave, .scallop, .zigzag]

/-- A single-channel mask, as the pixel value (0 = cut away, 255 = kept)
at column `x`, row `y`.  Pixels outside the `width × height` canvas keep
the background value 255 (PIL clips drawing to the canvas). -/
def Mask : Type := ℕ → ℕ → ℕ

/-- `_draw_wave_edge` (`generate_page.py` lines 146–157): per column `x`
of the canvas, the sine cutoff row `wave_y`; the drawn vertical line sets
pixels to 0 from row 0 down to `wave_y` (edge at the top) or from `wave_y`
down to the bottom (edge at the bottom).  When `width = 0` the column loop
body never runs, so the mask stays fully opaque and the division `x /
width` is never evaluated.  Wave drawing performs no integer division, so
it cannot raise `ZeroDivisionError`; it is wrapped in `Except` only for
uniformity with the other two edge styles. -/
def draw_wave_edge (width height wave_height wave_count : ℕ) (at_top : Bool) :
    Except PyErr Mask :=
  .ok (fun x y =>
    if width = 0 ∨ ¬ x < width then 255
    else
      let progress : ℚ := (x : ℚ) / width * wave_count * 2 * piQ
      let y_offset : ℚ := sinQ progress * wave_height
      if at_top then
        let wave_y : ℤ := pyTrunc ((wave_height : ℚ) - y_offset)
        if (y : ℤ) ≤ wave_y then 0 else 255
      else
        let wave_y : ℤ := pyTrunc ((height : ℚ) - wave_height + y_offset)
        if wave_y ≤ (y : ℤ) then 0 else 255)

/-- `_draw_scallop_edge` (lines 160–200).  `scallop_width = width //
wave_count` raises `ZeroDivisionError` when `wave_count = 0`; when
`scallop_width = 0` and the canvas has at least one column, the per-column
loop's `x // scallop_width` raises `ZeroDivisionError` on its first
iteration (before any pixel of the final mask picture is determined, so
the fault is modelled as the value of the whole call).  The preliminary
rectangle and ellipse draws of the source use `fill=255` on an all-255
canvas and leave no trace in the result; the per-column clearing loop
alone determines the mask. -/
def draw_scallop_edge (width height wave_height wave_count : ℕ) (at_top : Bool) :
    Except PyErr Mask := do
  let scallop_width ← pyDiv width wave_count
  let scallop_radius := scallop_width / 2
  if width ≠ 0 ∧ scallop_width = 0 then
    .error .zeroDivision
  else
    .ok (fun x y =>
      if ¬ x < width then 255
      else
        let scallop_index := x / scallop_width
        let center_x := scallop_index * scallop_width + scallop_radius
        let center_y : ℤ :=
          if at_top then (scallop_radius : ℤ) + 10
          else (height : ℤ) - scallop_radius - 10
        let dx := if x ≤ center_x then center_x - x else x - center_x
        let arc_y : ℤ :=
          if dx < scallop_radius then
            let arc_offset : ℤ := Nat.sqrt (scallop_radius ^ 2 - dx ^ 2)
            if at_top then center_y - arc_offset else center_y + arc_offset
          else center_y
        if at_top then
          if (y : ℤ) ≤ arc_y then 0 else 255
        else
          if arc_y ≤ (y : ℤ) then 0 else 255)

/-- `_draw_zigzag_edge` (lines 203–238).  `tooth_width = width //
(wave_count * 2)` raises `ZeroDivisionError` when `wave_count = 0`.  When
`tooth_width = 0` every per-tooth column range `range(x1, min(x2, width))`
is empty, nothing is cleared and the mask stays fully opaque (the inner
`progress` division is guarded by the source's `if tooth_width > 0`).
The preliminary polygon draw uses `fill=255` on an all-255 canvas and
leaves no trace.  A column `x` is cleared by tooth `i = x / tooth_width`
exactly when `i < wave_count * 2`; columns at `x ≥ wave_count * 2 *
tooth_width` are never touched. -/
def draw_zigzag_edge (width height wave_height wave_count : ℕ) (at_top : Bool) :
    Except PyErr Mask := do
  let tooth_width ← pyDiv width (wave_count * 2)
  .ok (fun x y =>
    if ¬ x < width ∨ tooth_width = 0 ∨ ¬ x / tooth_width < wave_count * 2 then 255
    else
      let i := x / tooth_width
      let x1 := i * tooth_width
      let yy : ℤ × ℤ :=
        if at_top then
          if i % 2 = 0 then ((wave_height : ℤ), 0) else (0, (wave_height : ℤ))
        else
          if i % 2 = 0 then ((height : ℤ) - wave_height, (height : ℤ))
          else ((height : ℤ), (height : ℤ) - wave_height)
      let progress : ℚ := ((x : ℚ) - x1) / tooth_width
      let cut : ℤ := pyTrunc ((yy.1 : ℚ) + ((yy.2 : ℚ) - yy.1) * progress)
      if at_top then
        if (y : ℤ) ≤ cut then 0 else 255
      else
        if cut ≤ (y : ℤ) then 0 else 255)

/-- `create_decorative_mask` (lines 241–264): chooses the wave count —
`random.randint(2, 10)` when the cut is at the bottom, the constant
`DEFAULT_WAVE_COUNT` when at the top — then dispatches on the edge style.
Returns the mask together with the generator state left behind. -/
def create_decorative_mask (width height : ℕ) (edge_type : EdgeKind)
    (at_top : Bool) (s : Mt) : Except PyErr Mask × Mt :=
  let (wave_count, s') :=
    if at_top then (DEFAULT_WAVE_COUNT, s) else randInt s 2 10
  let mask :=
    match edge_type with
    | .wave => draw_wave_edge width height WAVE_HEIGHT wave_count at_top
    | .scallop => draw_scallop_edge width height WAVE_HEIGHT wave_count at_top
    | .zigzag => draw_zigzag_edge width height WAVE_HEIGHT wave_count at_top
  (mask, s')

/-- The decorative-mask part of `create_story_page_with_image_and_text`
(lines 506–522) exactly as invoked per story page: `random.seed
(page_number)`, `edge_type = random.choice(EDGE_TYPES)`, then
`create_decorative_mask(PAGE_WIDTH, HALF_HEIGHT, edge_type, at_top = not
is_odd_page)`.  The incoming generator state `s` is the global state left
over from whatever ran before; `random.seed` replaces it.  No code
between the seed call and the mask creation consumes randomness. -/
def story_page_mask (page_number : ℕ) (s : Mt) : Except PyErr Mask × Mt :=
  let _ := s
  let s1 := mtSeed page_number
  let (edge_type, s2) := randChoice s1 EDGE_TYPES .wave
  let is_odd_page := page_number % 2 = 1
  create_decorative_mask PAGE_WIDTH HALF_HEIGHT edge_type (!is_odd_page) s2

/-- The clamped normalized centre distance of pixel `(x, y)` in a `width ×
height` canvas (`create_radial_gradient_mask`, lines 267–283): Euclidean
distance from the geometric centre divided by the centre-to-corner
distance, clamped to `[0, 1]`. -/
def normDist (width height x y : ℕ) : ℚ :=
  let center_x : ℚ := (width : ℚ) / 2
  let center_y : ℚ := (height : ℚ) / 2
  let max_dist : ℚ := sqrtQ (center_x ^ 2 + center_y ^ 2)
  let dist : ℚ :=
    sqrtQ (((x : ℚ) - center_x) ^ 2 + ((y : ℚ) - center_y) ^ 2) / max_dist
  max 0 (min 1 dist)

/-- `create_radial_gradient_mask` (lines 267–288), as the 8-bit alpha
value of pixel `(x, y)`: linear interpolation of the two opacities by the
clamped normalized centre distance, scaled by 255 and cast to `uint8`
(`astype(np.uint8)` truncates toward zero and wraps modulo 256). -/
def create_radial_gradient_mask (width height : ℕ)
    (center_opacity edge_opacity : ℚ) (x y : ℕ) : ℕ :=
  let opacity :=
    center_opacity + (edge_opacity - center_opacity) * normDist width height x y
  ((pyTrunc (opacity * 255)) % 256).toNat

/-- Python `str.split()` with no separator, over `List Char`: split on
runs of whitespace, dropping empty pieces (accumulator holds the current
in-progress word). -/
def splitWsAux : List Char → List Char → List (List Char)
  | [], cur => if cur = [] then [] else [cur]
  | c :: cs, cur =>
    if c.isWhitespace then
      if cur = [] then splitWsAux cs [] else cur :: splitWsAux cs []
    else splitWsAux cs (cur ++ [c])

/-- `text.split()`. -/
def splitWs (t : List Char) : List (List Char) :=
  splitWsAux t []

/-- `' '.join(words)` over `List Char` words. -/
def joinSp : List (List Char) → List Char
  | [] => []
  | [w] => w
  | w :: ws => w ++ ' ' :: joinSp ws

/-- The greedy grouping loop of `wrap_text` (lines 389–408): `measure`
embeds `draw.textbbox((0, 0), s, font)[2] - draw.textbbox(...)[0]` for the
given font; `cur` is `current_line` (the words of the line being built).
Returns the lines as word groups; `wrap_text` joins each group with
spaces. -/
def wrapGroups (measure : List Char → ℤ) (max_width : ℤ) :
    List (List Char) → List (List Char) → List (List (List Char))
  | [], cur => if cur = [] then [] else [cur]
  | word :: words, cur =>
    if measure (joinSp (cur ++ [word])) ≤ max_width then
      wrapGroups measure max_width words (cur ++ [word])
    else if cur = [] then
      wrapGroups measure max_width words [word]
    else
      cur :: wrapGroups measure max_width words [word]

/-- `wrap_text(text, font, max_width, draw)` (lines 389–408): split the
text into words, group them greedily, join each group with single
spaces. -/
def wrap_text (measure : List Char → ℤ) (max_width : ℤ) (text : List Char) :
    List (List Char) :=
  (wrapGroups measure max_width (splitWs text) []).map joinSp

/-- An RGB triple with 8-bit channels. -/
abbrev RGB : Type := ℕ × ℕ × ℕ

/-- `COLOR_QUANTIZE_LEVELS = 8`. -/
def COLOR_QUANTIZE_LEVELS : ℕ := 8

/-- `MIN_BRIGHTNESS = 60`. -/
def MIN_BRIGHTNESS : ℕ := 60

/-- `MIN_SATURATION = 0.25`. -/
def MIN_SATURATION : ℚ := 0.25

/-- `DEFAULT_LIGHT_COLOR = (255, 250, 245)`. -/
def DEFAULT_LIGHT_COLOR : RGB := (255, 250, 245)

/-- `DEFAULT_DARK_COLOR = (0, 0, 0)`. -/
def DEFAULT_DARK_COLOR : RGB := (0, 0, 0)

/-- The state of one path of the filesystem the embedded program reads:
missing, present but not decodable as an image, or an image.  An image is
carried as its pixel list at the sampling granularity at which the source
consumes it (`_extract_quantized_colors` resamples every image to 100×100
with LANCZOS before reading pixels; resampling is float convolution and is
not embedded — a uniform image resamples to itself, which is the only
property used below). -/
inductive FileState where
  | absent
  | corrupt
  | image (px : List RGB)

/-- Paths named by the source's filename conventions. -/
inductive FPath where
  | coverBg
  | storyBg (i : ℕ)
  | storyMain (i : ℕ)
  | endBg (i : ℕ)
  deriving DecidableEq, Repr

/-- A filesystem. -/
abbrev FS : Type := FPath → FileState

/-- `os.path.exists`. -/
def pathExists (fs : FS) (p : FPath) : Bool :=
  match fs p with
  | .absent => false
  | _ => true

/-- `Image.open(p).convert('RGB')` followed by the 100×100 LANCZOS
resample: raises `FileNotFoundError` on a missing path and
`UnidentifiedImageError` on an undecodable file. -/
def openImage (fs : FS) (p : FPath) : Except PyErr (List RGB) :=
  match fs p with
  | .absent => .error .fileNotFound
  | .corrupt => .error .unidentifiedImage
  | .image px => .ok px

/-- The per-pixel quantization of `_extract_quantized_colors` (lines
46–52): each channel is floored to a multiple of
`COLOR_QUANTIZE_LEVELS`. -/
def quantizePixels (px : List RGB) : List RGB :=
  px.map fun c =>
    (c.1 / COLOR_QUANTIZE_LEVELS * COLOR_QUANTIZE_LEVELS,
     c.2.1 / COLOR_QUANTIZE_LEVELS * COLOR_QUANTIZE_LEVELS,
     c.2.2 / COLOR_QUANTIZE_LEVELS * COLOR_QUANTIZE_LEVELS)

/-- First-occurrence-ordered list of the distinct elements of a list
(`collections.Counter` preserves insertion order of keys). -/
def uniquesAux {α : Type} [DecidableEq α] : List α → List α → List α
  | [], _ => []
  | x :: xs, seen =>
    if x ∈ seen then uniquesAux xs seen else x :: uniquesAux xs (x :: seen)

/-- Stable descending insertion: `x` is placed before the first element
whose key is strictly smaller, i.e. after all earlier elements with an
equal or larger key. -/
def insDesc {α : Type} (key : α → ℚ) (x : α) : List α → List α
  | [] => [x]
  | y :: ys => if key y < key x then x :: y :: ys else y :: insDesc key x ys

/-- Stable sort, descending by `key` (CPython's `sort(reverse=True)` and
`Counter.most_common` are stable in exactly this sense). -/
def sortDescBy {α : Type} (key : α → ℚ) (l : List α) : List α :=
  l.foldl (fun acc x => insDesc key x acc) []

/-- `Counter(quantized).most_common(num_colors)` (lines 54–55): pair each
distinct quantized color with its count, order by count descending
(stable), keep the top `num_colors`. -/
def mostCommon (px : List RGB) (num_colors : ℕ) : List (RGB × ℕ) :=
  sortDescBy (fun t => (t.2 : ℚ))
    ((uniquesAux px []).map fun c => (c, px.count c)) |>.take num_colors

/-- `max(r, g, b)` of a color. -/
def maxC (c : RGB) : ℕ := max c.1 (max c.2.1 c.2.2)

/-- `min(r, g, b)` of a color. -/
def minC (c : RGB) : ℕ := min c.1 (min c.2.1 c.2.2)

/-- The vibrancy scoring loop of `_extract_quantized_colors` (lines
57–71): drop colors with `max_c < MIN_BRIGHTNESS`, compute `saturation =
(max_c - min_c) / max_c` (0 when `max_c = 0`), drop colors with
`saturation < MIN_SATURATION`, score the rest as `saturation * 300 +
max_c`. -/
def scoreColors (mc : List (RGB × ℕ)) : List (RGB × ℚ) :=
  mc.filterMap fun t =>
    let c := t.1
    if maxC c < MIN_BRIGHTNESS then none
    else
      let saturation : ℚ :=
        if 0 < maxC c then ((maxC c : ℚ) - (minC c : ℚ)) / (maxC c : ℚ) else 0
      if saturation < MIN_SATURATION then none
      else some (c, saturation * 300 + (maxC c : ℚ))

/-- The brightness fallback of `_extract_quantized_colors` (lines 73–78):
when no color survives the vibrancy filter, keep every color with `max_c >
50`, scored by `max_c`. -/
def fallbackColors (mc : List (RGB × ℕ)) : List (RGB × ℚ) :=
  mc.filterMap fun t =>
    if 50 < maxC t.1 then some (t.1, (maxC t.1 : ℚ)) else none

/-- The pure core of `_extract_quantized_colors` (lines 37–81) applied to
the resampled pixel list: quantize, count, score, fall back if needed,
sort by score descending. -/
def validColorsOf (px : List RGB) : List (RGB × ℚ) :=
  let mc := mostCommon (quantizePixels px) 50
  let valid := scoreColors mc
  let valid := if valid = [] then fallbackColors mc else valid
  sortDescBy (fun t => t.2) valid

/-- `_extract_quantized_colors(image_path, num_colors=50)`: open and
resample the image, then extract the scored vibrant colors. -/
def extract_quantized_colors (fs : FS) (p : FPath) : Except PyErr (List (RGB × ℚ)) :=
  (openImage fs p).map validColorsOf

/-- `get_dominant_color` (lines 84–99): darkest variant `(int(r * 0.5),
int(g * 0.6), int(b * 0.7))` (each with `max(0, ·)`) of the top-scoring
surviving color; the documented default on an empty extraction, and — via
the enclosing `try/except` — on any image-decode error. -/
def get_dominant_color (fs : FS) (p : FPath) : RGB :=
  match extract_quantized_colors fs p with
  | .error _ => DEFAULT_DARK_COLOR
  | .ok valid =>
    match valid with
    | [] => DEFAULT_DARK_COLOR
    | (c, _) :: _ =>
      ((max 0 (pyTrunc ((c.1 : ℚ) * 0.5))).toNat,
       (max 0 (pyTrunc ((c.2.1 : ℚ) * 0.6))).toNat,
       (max 0 (pyTrunc ((c.2.2 : ℚ) * 0.7))).toNat)

/-- `get_light_color` (lines 102–118): light pastel shade `min(255,
int(255 - (255 - ch) * f))` with `f = (0.15, 0.12, 0.10)` per channel of
the top-scoring surviving color; default light color on empty extraction
or decode error. -/
def get_light_color (fs : FS) (p : FPath) : RGB :=
  match extract_quantized_colors fs p with
  | .error _ => DEFAULT_LIGHT_COLOR
  | .ok valid =>
    match valid with
    | [] => DEFAULT_LIGHT_COLOR
    | (c, _) :: _ =>
      (min 255 (pyTrunc (255 - (255 - (c.1 : ℚ)) * 0.15)).toNat,
       min 255 (pyTrunc (255 - (255 - (c.2.1 : ℚ)) * 0.12)).toNat,
       min 255 (pyTrunc (255 - (255 - (c.2.2 : ℚ)) * 0.10)).toNat)

/-- Python's `max(l, key=k)` over a non-empty list, given as head and
tail: keeps the first element, replacing it only on a strictly larger
key — so the first maximum in iteration order wins. -/
def maxByKeyAux {α : Type} (k : α → ℕ) (best : α) : List α → α
  | [] => best
  | x :: xs => maxByKeyAux k (if k best < k x then x else best) xs

/-- `get_brightest_color` (lines 121–143): among the surviving colors,
take the one with the largest channel **sum** (`max(valid_colors,
key=lambda x: sum(x[0]))`), then boost it so its maximum channel reaches
255, with a boost factor capped at 1.3; white on empty extraction, decode
error, or an all-zero chosen color. -/
def get_brightest_color (fs : FS) (p : FPath) : RGB :=
  match extract_quantized_colors fs p with
  | .error _ => (255, 255, 255)
  | .ok valid =>
    match valid with
    | [] => (255, 255, 255)
    | v :: vs =>
      let brightest := maxByKeyAux (fun t => t.1.1 + t.1.2.1 + t.1.2.2) v vs
      let c := brightest.1
      let max_val := maxC c
      if 0 < max_val then
        let factor : ℚ := min ((255 : ℚ) / (max_val : ℚ)) 1.3
        (min 255 (pyTrunc ((c.1 : ℚ) * factor)).toNat,
         min 255 (pyTrunc ((c.2.1 : ℚ) * factor)).toNat,
         min 255 (pyTrunc ((c.2.2 : ℚ) * factor)).toNat)
      else (255, 255, 255)

/-- `BG_OPACITY_CENTER = 0.03`. -/
def BG_OPACITY_CENTER : ℚ := 0.03

/-- `BG_OPACITY_EDGE = 0.15`. -/
def BG_OPACITY_EDGE : ℚ := 0.15

/-- `create_page_with_background` (lines 329–356), at the structural
level: the base fill color is the light shade of the main image's dominant
color when the main image exists, else `DEFAULT_LIGHT_COLOR`; when the
background-wash path exists, the wash image is opened (raising on an
undecodable file — there is no `try` here), masked with
`create_radial_gradient_mask(PAGE_WIDTH, PAGE_HEIGHT, BG_OPACITY_CENTER,
BG_OPACITY_EDGE)` and alpha-composited over the base fill.  The result is
the base color and whether the wash was composited; the pixel-level
composite itself deposits no information any theorem below consumes. -/
def create_page_with_background (fs : FS) (bg_image_path main_image_path : FPath) :
    Except PyErr (RGB × Bool) :=
  let bg_color :=
    if pathExists fs main_image_path then get_light_color fs main_image_path
    else DEFAULT_LIGHT_COLOR
  if pathExists fs bg_image_path then
    match openImage fs bg_image_path with
    | .error e => .error e
    | .ok _bg_img => .ok (bg_color, true)
  else
    .ok (bg_color, false)

/-- Position of the page number on the page. -/
inductive NumPos where
  | top
  | bottom
  deriving DecidableEq, Repr

/-- The illustration placement recorded for a rendered story page: the
vertical offset at which the masked illustration was composited and
whether its decorative cut is at its top edge, plus the chosen edge
style. -/
structure IllusInfo where
  y : ℕ
  cutAtTop : Bool
  edge : EdgeKind
  deriving DecidableEq, Repr

/-- A story page bitmap at the structural level: everything
`create_story_page_with_image_and_text` decides about the page other than
raw pixel values. -/
structure RenderedPage where
  width : ℕ
  height : ℕ
  bgColor : RGB
  washComposited : Bool
  textColor : RGB
  illus : Option IllusInfo
  text : List Char
  textTop : ℕ
  textAreaHeight : ℕ
  pageNum : ℕ
  numPos : NumPos
  deriving DecidableEq, Repr

/-- `create_story_page_with_image_and_text` (lines 500–541), structural:
parity decides the layout; the RNG is seeded with the page number and the
edge style drawn; the background page is built (raising on an undecodable
wash); the text color is the dominant dark shade of the main image
(`DEFAULT_DARK_COLOR` when it is missing or undecodable — that call
catches its own errors); if the main image exists it is opened (raising
on an undecodable file), the decorative mask created (propagating any
mask fault) and the masked illustration composited at `y = 0` (odd page)
or `y = HALF_HEIGHT` (even page); the text is drawn centred in the
opposite half and the page number at the bottom (odd) or top (even). -/
def create_story_page_with_image_and_text (fs : FS) (page_number : ℕ)
    (bg_image_path main_image_path : FPath) (text : List Char) (s : Mt) :
    Except PyErr RenderedPage :=
  let is_odd_page : Bool := page_number % 2 = 1
  let s1 := mtSeed page_number
  let ec := randChoice s1 EDGE_TYPES .wave
  match create_page_with_background fs bg_image_path main_image_path with
  | .error e => .error e
  | .ok bw =>
    let text_color := get_dominant_color fs main_image_path
    let illusE : Except PyErr (Option IllusInfo) :=
      if pathExists fs main_image_path then
        match openImage fs main_image_path with
        | .error e => .error e
        | .ok _main_img =>
          match (create_decorative_mask PAGE_WIDTH HALF_HEIGHT ec.1
              (!is_odd_page) ec.2).1 with
          | .error e => .error e
          | .ok _mask =>
            .ok (some (IllusInfo.mk (if is_odd_page then 0 else HALF_HEIGHT)
              (!is_odd_page) ec.1))
      else .ok none
    match illusE with
    | .error e => .error e
    | .ok illus =>
      .ok (RenderedPage.mk PAGE_WIDTH PAGE_HEIGHT bw.1 bw.2 text_color illus
        text (if is_odd_page then HALF_HEIGHT else 0) HALF_HEIGHT
        page_number (if is_odd_page then NumPos.bottom else NumPos.top))

/-- One page record of `story.json`: the JSON array's elements are either
objects (with an optional `"story"` key) or bare strings. -/
inductive PageData where
  | str (s : List Char)
  | obj (story : Option (List Char))

/-- `page_data.get("story", "") if isinstance(page_data, dict) else
page_data` (line 764). -/
def storyOf : PageData → List Char
  | .str s => s
  | .obj o => o.getD []

/-- Python `str.strip()`. -/
def pyStrip (l : List Char) : List Char :=
  ((l.dropWhile Char.isWhitespace).reverse.dropWhile Char.isWhitespace).reverse

/-- Python `str.isupper()` (ASCII model: cased characters are the
letters): at least one letter, and no lowercase letter. -/
def pyIsUpper (l : List Char) : Bool :=
  l.any (fun c => c.isAlpha) && l.all (fun c => !c.isAlpha || c.isUpper)

/-- The backtracking tail of the regex `Title:\s*(.+)`: try the split
points after the whitespace run from longest to shortest; at the first
split point whose next character is not a newline, `(.+)` greedily
captures up to the next newline.  `k` is the number of whitespace
characters `\s*` currently consumes. -/
def reDotPlus (t : List Char) : ℕ → Option (List Char)
  | 0 =>
    match t.head? with
    | some c => if c ≠ '\n' then some (t.takeWhile (· ≠ '\n')) else none
    | none => none
  | k + 1 =>
    match (t.drop (k + 1)).head? with
    | some c =>
      if c ≠ '\n' then some ((t.drop (k + 1)).takeWhile (· ≠ '\n'))
      else reDotPlus t k
    | none => reDotPlus t k

/-- `re.match(r"Title:\s*(.+)", content)`, returning `group(1)`: anchored
at the start, the literal `Title:` followed by greedily-consumed
whitespace, then at least one non-newline character captured to the end
of the line. -/
def reTitleMatch (content : List Char) : Option (List Char) :=
  if content.take 6 = "Title:".toList then
    let t := content.drop 6
    reDotPlus t (t.takeWhile Char.isWhitespace).length
  else none

/-- `_extract_title` (lines 308–326): default `"My Storybook"`,
overridden by the `Title:` line of `prompt.txt` when present, overridden
in turn by a short, shouty-or-apostrophed first story page.  Reading the
first page uses `story_data[0].get(...)` unconditionally, which raises
`AttributeError` when that element is a bare string. -/
def extract_title (prompt : Option (List Char)) (story_data : List PageData) :
    Except PyErr (List Char) :=
  let t0 := "My Storybook".toList
  let t1 :=
    match prompt with
    | none => t0
    | some content =>
      match reTitleMatch content with
      | some g => pyStrip g
      | none => t0
  match story_data.head? with
  | none => .ok t1
  | some pg =>
    match pg with
    | .str _ => .error .attributeError
    | .obj o =>
      let potential := pyStrip (o.getD [])
      if potential ≠ [] ∧ (splitWs potential).length ≤ 10
          ∧ (pyIsUpper potential ∨ '\'' ∈ potential) then
        .ok potential
      else .ok t1

/-- `parse_story` (lines 291–305): `story.json` missing raises
`FileNotFoundError`; an empty story document raises `ValueError
("story.json is empty")` **before** the title is extracted; otherwise the
title and the page list are returned.  `story` is the decoded content of
`story.json` (`none` = file missing), `prompt` the content of
`prompt.txt`. -/
def parse_story (story : Option (List PageData)) (prompt : Option (List Char)) :
    Except PyErr (List Char × List PageData) :=
  match story with
  | none => .error .fileNotFound
  | some story_data =>
    if story_data.isEmpty then .error .valueError
    else
      match extract_title prompt story_data with
      | .error e => .error e
      | .ok title => .ok (title, story_data)

/-- The cover page at the structural level (`generate_cover_page`, lines
738–760): whether the cover background was used (opened first — raising
on an undecodable file), and the title drawn (obtained from
`parse_story`, called after the image is opened).  The title styling of
`draw_cover_title` draws pixels and catches its own color-extraction
errors, so it neither fails nor decides structure. -/
structure CoverPage where
  usedBg : Bool
  title : List Char

/-- `generate_cover_page` (lines 738–760), structural. -/
def generate_cover_page (story : Option (List PageData))
    (prompt : Option (List Char)) (fs : FS) : Except PyErr CoverPage :=
  let usedBg := pathExists fs FPath.coverBg
  let opened : Except PyErr Unit :=
    if usedBg then
      match openImage fs FPath.coverBg with
      | .error e => .error e
      | .ok _page => .ok ()
    else .ok ()
  match opened with
  | .error e => .error e
  | .ok _ =>
    match parse_story story prompt with
    | .error e => .error e
    | .ok r => .ok (CoverPage.mk usedBg r.1)

/-- The end page at the structural level (`generate_end_page`, lines
777–850): whether the background was used (opened — raising on an
undecodable file).  QR-code generation and the text drawing are pure and
total. -/
structure EndPage where
  usedBg : Bool

/-- `generate_end_page` (lines 777–850), structural. -/
def generate_end_page (fs : FS) (page_number : ℕ) : Except PyErr EndPage :=
  let usedBg := pathExists fs (FPath.endBg page_number)
  if usedBg then
    match openImage fs (FPath.endBg page_number) with
    | .error e => .error e
    | .ok _page => .ok (EndPage.mk usedBg)
  else .ok (EndPage.mk usedBg)

/-- One output file written under `pages/`. -/
inductive OutFile where
  | cover
  | story (i : ℕ)
  | endPage (i : ℕ)
  deriving DecidableEq, Repr

/-- The story-page loop of `main` (lines 870–872): pages are rendered in
order starting at index 1; an exception aborts the loop with the files
written so far.  Each page reseeds the generator from its own index
(theorem `story_page_mask_deterministic` below), so the generator state
handed to each page is irrelevant and is passed through unchanged. -/
def renderStories (fs : FS) (s : Mt) : ℕ → List PageData → List OutFile × Option PyErr
  | _, [] => ([], none)
  | i, pd :: rest =>
    match create_story_page_with_image_and_text fs i (FPath.storyBg i)
        (FPath.storyMain i) (storyOf pd) s with
    | .error e => ([], some e)
    | .ok _pg =>
      let r := renderStories fs s (i + 1) rest
      (OutFile.story i :: r.1, r.2)

/-- `main` (lines 852–881): parse the story document first, then write
the cover, the story pages in order, and the end page.  Returns the
ordered list of files written under `pages/` and the exception that
aborted the batch, if any.  An empty or missing story document aborts at
`parse_story`, before any page is rendered. -/
def mainRun (story : Option (List PageData)) (prompt : Option (List Char))
    (fs : FS) (s : Mt) : List OutFile × Option PyErr :=
  match parse_story story prompt with
  | .error e => ([], some e)
  | .ok (_title, story_pages) =>
    match generate_cover_page story prompt fs with
    | .error e => ([], some e)
    | .ok _ =>
      let r := renderStories fs s 1 story_pages
      match r.2 with
      | some e => (OutFile.cover :: r.1, some e)
      | none =>
        match generate_end_page fs (story_pages.length + 1) with
        | .error e => (OutFile.cover :: r.1, some e)
        | .ok _ =>
          (OutFile.cover :: r.1 ++ [OutFile.endPage (story_pages.length + 1)], none)

/-- Claim C1: for a fixed page index and the fixed edge-style pool
`EDGE_TYPES`, two independent invocations of the decorative mask
generator, as invoked for that page (`random.seed(page_number)` followed
by the edge-style choice and `create_decorative_mask`), produce
byte-identical masks: the incoming global generator states `s₁`, `s₂`
— whatever randomness was consumed before — never influence the result,
because seeding replaces the state and the edge-style choice and
bottom-edge wave count are drawn from the freshly seeded generator. -/
theorem story_page_mask_deterministic (page_number : ℕ) (s₁ s₂ : Mt) :
    story_page_mask page_number s₁ = story_page_mask page_number s₂ :=
  rfl

/-- Claim C5: the edge drawing functions do **not** guard degenerate
inputs.  A zero wave count makes `_draw_scallop_edge` and
`_draw_zigzag_edge` raise `ZeroDivisionError` at their initial `width //
wave_count` (resp. `width // (wave_count * 2)`), and a width smaller than
the wave count makes `_draw_scallop_edge` raise `ZeroDivisionError` at
`x // scallop_width` in its per-column loop; none of them falls back to an
uncut mask.  (Only `_draw_wave_edge` with `width = 0`, and
`_draw_zigzag_edge` with a zero per-tooth width, are fault-free.) -/
theorem edge_draw_zero_division :
    draw_scallop_edge 100 100 25 0 false = .error .zeroDivision ∧
    draw_zigzag_edge 100 100 25 0 false = .error .zeroDivision ∧
    draw_scallop_edge 5 100 25 8 false = .error .zeroDivision :=
  ⟨rfl, rfl, rfl⟩

set_option maxRecDepth 8000 in
/-- Claim C2: for every story page, layout is a pure function of
page-number parity.  Odd page number: the masked illustration (when
composited at all) goes at `y = 0` (top half) with the decorative cut at
its bottom edge, the text is centred in the bottom half (`textTop =
HALF_HEIGHT`), and the page number sits at the page's bottom.  Even page
number: all three placements are inverted. -/
theorem story_layout_parity (fs : FS) (n : ℕ) (bg main : FPath)
    (text : List Char) (s : Mt) (pg : RenderedPage)
    (h : create_story_page_with_image_and_text fs n bg main text s = .ok pg) :
    (n % 2 = 1 →
      pg.textTop = HALF_HEIGHT ∧ pg.numPos = NumPos.bottom ∧
      ∀ il, pg.illus = some il → il.y = 0 ∧ il.cutAtTop = false) ∧
    (n % 2 = 0 →
      pg.textTop = 0 ∧ pg.numPos = NumPos.top ∧
      ∀ il, pg.illus = some il → il.y = HALF_HEIGHT ∧ il.cutAtTop = true) := by
  unfold create_story_page_with_image_and_text at h
  dsimp only at h
  split at h
  · exact Except.noConfusion h
  next bw hbw =>
    split at h
    · exact Except.noConfusion h
    next illus hil =>
      injection h with h
      subst h
      constructor
      · intro hodd
        refine ⟨by simp [hodd], by simp [hodd], fun il hili => ?_⟩
        split at hil
        · rcases ho : openImage fs main with e | px
          · rw [ho] at hil; exact Except.noConfusion hil
          · rw [ho] at hil
            rcases hm : (create_decorative_mask PAGE_WIDTH HALF_HEIGHT
                (randChoice (mtSeed n) EDGE_TYPES EdgeKind.wave).1
                (!decide (n % 2 = 1)) (randChoice (mtSeed n) EDGE_TYPES EdgeKind.wave).2).1
              with e | mk
            · rw [hm] at hil; exact Except.noConfusion hil
            · rw [hm] at hil
              injection hil with hil
              subst hil
              injection hili with hili
              subst hili
              simp [hodd]
        · injection hil with hil
          subst hil
          exact Option.noConfusion hili
      · intro heven
        have hodd' : ¬ n % 2 = 1 := by omega
        refine ⟨by simp [hodd'], by simp [hodd'], fun il hili => ?_⟩
        split at hil
        · rcases ho : openImage fs main with e | px
          · rw [ho] at hil; exact Except.noConfusion hil
          · rw [ho] at hil
            rcases hm : (create_decorative_mask PAGE_WIDTH HALF_HEIGHT
                (randChoice (mtSeed n) EDGE_TYPES EdgeKind.wave).1
                (!decide (n % 2 = 1)) (randChoice (mtSeed n) EDGE_TYPES EdgeKind.wave).2).1
              with e | mk
            · rw [hm] at hil; exact Except.noConfusion hil
            · rw [hm] at hil
              injection hil with hil
              subst hil
              injection hili with hili
              subst hili
              simp [hodd']
        · injection hil with hil
          subst hil
          exact Option.noConfusion hili

/-- A filesystem holding only the illustration of story page 1 (a small
uniform red image at the sampled granularity). -/
def fsLayoutW : FS := fun p =>
  match p with
  | .storyMain 1 => .image [(200, 0, 0), (200, 0, 0), (200, 0, 0)]
  | _ => .absent

/-- Witness for `story_layout_parity` at the concrete odd page 1 with its
illustration present: the render succeeds and the layout conclusions
hold. -/
theorem story_layout_parity_witness :
    ∃ pg, create_story_page_with_image_and_text fsLayoutW 1 (FPath.storyBg 1)
        (FPath.storyMain 1) "Hi".toList 0 = .ok pg ∧
      pg.textTop = HALF_HEIGHT ∧ pg.numPos = NumPos.bottom ∧
      ∀ il, pg.illus = some il → il.y = 0 ∧ il.cutAtTop = false := by
  obtain ⟨pg, hpg⟩ : ∃ pg, create_story_page_with_image_and_text fsLayoutW 1
      (FPath.storyBg 1) (FPath.storyMain 1) "Hi".toList 0 = .ok pg := ⟨_, rfl⟩
  exact ⟨pg, hpg, (story_layout_parity fsLayoutW 1 _ _ _ 0 pg hpg).1 rfl⟩

/-- Claim C7 (amended): for every story page whose illustration file is
missing — provided the background wash file, when present, is decodable —
rendering succeeds without raising and produces a full-size page whose
base background fill is `DEFAULT_LIGHT_COLOR`, with no illustration
composited, with the story text and the page number still drawn (the text
in the default dark color, since color extraction falls back).  The
proviso is forced: an undecodable wash file makes
`create_page_with_background` raise (see
`story_page_missing_illustration_counterexample`). -/
theorem story_page_missing_illustration (fs : FS) (n : ℕ) (bg main : FPath)
    (text : List Char) (s : Mt)
    (hmain : fs main = .absent) (hbg : fs bg ≠ .corrupt) :
    ∃ pg, create_story_page_with_image_and_text fs n bg main text s = .ok pg ∧
      pg.bgColor = DEFAULT_LIGHT_COLOR ∧ pg.illus = none ∧
      pg.width = PAGE_WIDTH ∧ pg.height = PAGE_HEIGHT ∧
      pg.text = text ∧ pg.pageNum = n ∧
      pg.textColor = DEFAULT_DARK_COLOR ∧ pg.textAreaHeight = HALF_HEIGHT := by
  have hpe : pathExists fs main = false := by
    simp [pathExists, hmain]
  have hgd : get_dominant_color fs main = DEFAULT_DARK_COLOR := by
    simp [get_dominant_color, extract_quantized_colors, openImage, hmain,
      Except.map]
  have hcb : create_page_with_background fs bg main =
      .ok (DEFAULT_LIGHT_COLOR, pathExists fs bg) := by
    unfold create_page_with_background
    rw [hpe]
    cases hfb : fs bg with
    | absent => simp [pathExists, hfb]
    | corrupt => exact absurd hfb hbg
    | image px => simp [pathExists, openImage, hfb]
  unfold create_story_page_with_image_and_text
  rw [hcb, hgd, hpe]
  exact ⟨_, rfl, rfl, rfl, rfl, rfl, rfl, rfl, rfl, rfl⟩

/-- The empty filesystem: every asset is missing. -/
def fsEmpty : FS := fun _ => .absent

/-- Witness for `story_page_missing_illustration`: page 2 with every
asset missing renders successfully with the default light background and
no illustration. -/
theorem story_page_missing_illustration_witness :
    ∃ pg, create_story_page_with_image_and_text fsEmpty 2 (FPath.storyBg 2)
        (FPath.storyMain 2) "Hi".toList 0 = .ok pg ∧
      pg.bgColor = DEFAULT_LIGHT_COLOR ∧ pg.illus = none ∧
      pg.width = PAGE_WIDTH ∧ pg.height = PAGE_HEIGHT ∧
      pg.text = "Hi".toList ∧ pg.pageNum = 2 ∧
      pg.textColor = DEFAULT_DARK_COLOR ∧ pg.textAreaHeight = HALF_HEIGHT :=
  story_page_missing_illustration fsEmpty 2 (FPath.storyBg 2)
    (FPath.storyMain 2) "Hi".toList 0 rfl (by intro h; exact FileState.noConfusion h)

/-- A filesystem where story page 1's illustration is missing but its
background wash file exists and is not decodable as an image. -/
def fsCorruptWash : FS := fun p =>
  match p with
  | .storyBg 1 => .corrupt
  | _ => .absent

/-- Counterexample to claim C7 as stated: story page 1's illustration
file is missing, yet rendering raises (`UnidentifiedImageError` from
`Image.open` on the undecodable background wash inside
`create_page_with_background`, where no exception is caught) instead of
succeeding. -/
theorem story_page_missing_illustration_counterexample :
    create_story_page_with_image_and_text fsCorruptWash 1 (FPath.storyBg 1)
      (FPath.storyMain 1) [] 0 = .error .unidentifiedImage := rfl

/-- Claim C9: a story document with zero pages aborts the whole batch
before any page is rendered: `parse_story` raises `ValueError` on empty
story data (before title extraction), and `main` calls `parse_story`
before generating any page, so the run writes no output files and stops
with that error. -/
theorem empty_story_aborts (prompt : Option (List Char)) (fs : FS) (s : Mt) :
    parse_story (some []) prompt = .error .valueError ∧
    mainRun (some []) prompt fs s = ([], some .valueError) :=
  ⟨rfl, rfl⟩

/-- `uniquesAux` of a constant list is empty once the constant has been
seen. -/
theorem uniquesAux_replicate_mem {c : RGB} (n : ℕ) (seen : List RGB)
    (h : c ∈ seen) : uniquesAux (List.replicate n c) seen = [] := by
  induction n with
  | zero => simp [uniquesAux]
  | succ n ih => simp [List.replicate_succ, uniquesAux, h, ih]

/-- `uniquesAux` of a non-empty constant list is the one constant. -/
theorem uniquesAux_replicate (n : ℕ) (c : RGB) :
    uniquesAux (List.replicate (n + 1) c) [] = [c] := by
  have h := uniquesAux_replicate_mem (c := c) n [c] (by simp)
  simp [List.replicate_succ, uniquesAux, h]

/-- A uniform black pixel list survives neither the vibrancy filter
(`max_c = 0 < MIN_BRIGHTNESS`) nor the brightness fallback
(`max_c = 0 ≤ 50`), so the extraction yields no colors — and in
particular no division by the zero `max_c` is ever attempted (the
saturation division is guarded and unreached). -/
theorem validColorsOf_uniform_black (n : ℕ) :
    validColorsOf (List.replicate n ((0, 0, 0) : RGB)) = [] := by
  cases n with
  | zero => rfl
  | succ n =>
    have hq : quantizePixels (List.replicate (n + 1) ((0, 0, 0) : RGB)) =
        List.replicate (n + 1) ((0, 0, 0) : RGB) := by
      simp [quantizePixels]
    unfold validColorsOf mostCommon
    rw [hq, uniquesAux_replicate]
    simp [sortDescBy, insDesc, scoreColors, fallbackColors, maxC, minC,
      MIN_BRIGHTNESS]

/-- Claim C6: theme-color extraction never raises to its caller — every
image-decode error (missing file, unparsable file) is caught inside
`get_dominant_color` and mapped to the documented default dark color; and
extraction on a fully uniform black image returns that same default
rather than failing with a division by zero. -/
theorem color_extraction_never_raises (fs : FS) (p : FPath) :
    (∀ e, openImage fs p = .error e →
      get_dominant_color fs p = DEFAULT_DARK_COLOR) ∧
    (∀ n, fs p = .image (List.replicate n (0, 0, 0)) →
      get_dominant_color fs p = DEFAULT_DARK_COLOR) := by
  constructor
  · intro e he
    simp [get_dominant_color, extract_quantized_colors, he, Except.map]
  · intro n hn
    have ho : extract_quantized_colors fs p =
        .ok (validColorsOf (List.replicate n ((0, 0, 0) : RGB))) := by
      simp only [extract_quantized_colors, openImage, hn, Except.map]
    unfold get_dominant_color
    rw [ho, validColorsOf_uniform_black]

/-- A filesystem whose every file is a uniform black image. -/
def fsBlack : FS := fun _ => .image (List.replicate 4 (0, 0, 0))

/-- Witness for `color_extraction_never_raises`: a missing file and a
concrete uniform black image both yield the default dark color. -/
theorem color_extraction_never_raises_witness :
    get_dominant_color fsEmpty FPath.coverBg = DEFAULT_DARK_COLOR ∧
    get_dominant_color fsBlack FPath.coverBg = DEFAULT_DARK_COLOR :=
  ⟨(color_extraction_never_raises fsEmpty FPath.coverBg).1 .fileNotFound rfl,
   (color_extraction_never_raises fsBlack FPath.coverBg).2 4 rfl⟩

/-- Claim C8 (amended): when extraction yields at least one surviving
color, `dark` and `light` are computed per channel from the single
highest-scoring surviving color `c` as `dark = (int(r*0.5), int(g*0.6),
int(b*0.7))` and `light = (int(255-(255-r)*0.15), int(255-(255-g)*0.12),
int(255-(255-b)*0.10))` — but `bright` is computed from the surviving
color with the largest channel **sum** (`max(valid_colors, key=lambda x:
sum(x[0]))`), which need not be the highest-scoring color, scaled so its
maximum channel reaches 255 with the boost factor capped at 1.3. -/
theorem derived_shades_formula (fs : FS) (p : FPath) (px : List RGB)
    (c : RGB) (sc : ℚ) (rest : List (RGB × ℚ))
    (hpx : fs p = .image px)
    (hv : validColorsOf px = (c, sc) :: rest) :
    get_dominant_color fs p =
      ((max 0 (pyTrunc ((c.1 : ℚ) * 0.5))).toNat,
       (max 0 (pyTrunc ((c.2.1 : ℚ) * 0.6))).toNat,
       (max 0 (pyTrunc ((c.2.2 : ℚ) * 0.7))).toNat) ∧
    get_light_color fs p =
      (min 255 (pyTrunc (255 - (255 - (c.1 : ℚ)) * 0.15)).toNat,
       min 255 (pyTrunc (255 - (255 - (c.2.1 : ℚ)) * 0.12)).toNat,
       min 255 (pyTrunc (255 - (255 - (c.2.2 : ℚ)) * 0.10)).toNat) ∧
    get_brightest_color fs p =
      (let b := (maxByKeyAux (fun t => t.1.1 + t.1.2.1 + t.1.2.2) (c, sc) rest).1
       if 0 < maxC b then
         (min 255 (pyTrunc ((b.1 : ℚ) * min ((255 : ℚ) / (maxC b : ℚ)) 1.3)).toNat,
          min 255 (pyTrunc ((b.2.1 : ℚ) * min ((255 : ℚ) / (maxC b : ℚ)) 1.3)).toNat,
          min 255 (pyTrunc ((b.2.2 : ℚ) * min ((255 : ℚ) / (maxC b : ℚ)) 1.3)).toNat)
       else (255, 255, 255)) := by
  have ho : extract_quantized_colors fs p = .ok ((c, sc) :: rest) := by
    simp only [extract_quantized_colors, openImage, hpx, Except.map, hv]
  refine ⟨?_, ?_, ?_⟩
  · unfold get_dominant_color
    rw [ho]
  · unfold get_light_color
    rw [ho]
  · unfold get_brightest_color
    rw [ho]

/-- On non-negative rationals, `int()` truncation agrees with the floor
function. -/
theorem pyTrunc_eq_floor {q : ℚ} (h : 0 ≤ q) : pyTrunc q = ⌊q⌋ := by
  unfold pyTrunc
  rw [Rat.floor_def]
  exact Int.tdiv_eq_ediv (by exact_mod_cast Rat.num_nonneg.mpr h) (by positivity)

/-- Evaluation rule for `pyTrunc` on a non-negative value bracketed by
consecutive integers. -/
theorem pyTrunc_eq_of {q : ℚ} {z : ℤ} (h1 : (z : ℚ) ≤ q) (h2 : q < (z : ℚ) + 1)
    (h0 : 0 ≤ z) : pyTrunc q = z := by
  rw [pyTrunc_eq_floor (le_trans (by exact_mod_cast h0) h1)]
  exact Int.floor_eq_iff.mpr ⟨h1, by exact_mod_cast h2⟩

/-- A five-pixel image whose most frequent quantized color `(200, 0, 0)`
is the highest-scoring surviving color (score 500) while `(152, 152,
96)` (score 4988/19 ≈ 262.5) has the larger channel sum (400 vs 200). -/
def pxBright : List RGB :=
  List.replicate 3 (200, 0, 0) ++ List.replicate 2 (152, 152, 96)

/-- A filesystem whose every file decodes to `pxBright`. -/
def fsBright : FS := fun _ => .image pxBright

/-- The scored, sorted extraction output on `pxBright`. -/
theorem validColorsOf_pxBright :
    validColorsOf pxBright = [((200, 0, 0), 500), ((152, 152, 96), 4988 / 19)] := by
  norm_num [validColorsOf, pxBright, quantizePixels, COLOR_QUANTIZE_LEVELS,
    mostCommon, uniquesAux, sortDescBy, insDesc, scoreColors, fallbackColors,
    maxC, minC, MIN_BRIGHTNESS, MIN_SATURATION, List.replicate, List.count_cons,
    List.filterMap_cons, List.filterMap_nil, List.foldl_cons, List.foldl_nil,
    List.take_succ_cons, List.take_nil, List.cons_ne_nil]

/-- Witness for `derived_shades_formula` on `pxBright`: the theorem
instantiated at the concrete image, top-scoring color `(200, 0, 0)` and
surviving list `[((200,0,0), 500), ((152,152,96), 4988/19)]`. -/
theorem derived_shades_formula_witness :
    get_dominant_color fsBright FPath.coverBg =
      ((max 0 (pyTrunc ((((200, 0, 0) : RGB).1 : ℚ) * 0.5))).toNat,
       (max 0 (pyTrunc ((((200, 0, 0) : RGB).2.1 : ℚ) * 0.6))).toNat,
       (max 0 (pyTrunc ((((200, 0, 0) : RGB).2.2 : ℚ) * 0.7))).toNat) ∧
    get_light_color fsBright FPath.coverBg =
      (min 255 (pyTrunc (255 - (255 - ((((200, 0, 0) : RGB).1 : ℚ))) * 0.15)).toNat,
       min 255 (pyTrunc (255 - (255 - ((((200, 0, 0) : RGB).2.1 : ℚ))) * 0.12)).toNat,
       min 255 (pyTrunc (255 - (255 - ((((200, 0, 0) : RGB).2.2 : ℚ))) * 0.10)).toNat) ∧
    get_brightest_color fsBright FPath.coverBg =
      (let b := (maxByKeyAux (fun t => t.1.1 + t.1.2.1 + t.1.2.2)
          (((200, 0, 0) : RGB), (500 : ℚ)) [((152, 152, 96), 4988 / 19)]).1
       if 0 < maxC b then
         (min 255 (pyTrunc ((b.1 : ℚ) * min ((255 : ℚ) / (maxC b : ℚ)) 1.3)).toNat,
          min 255 (pyTrunc ((b.2.1 : ℚ) * min ((255 : ℚ) / (maxC b : ℚ)) 1.3)).toNat,
          min 255 (pyTrunc ((b.2.2 : ℚ) * min ((255 : ℚ) / (maxC b : ℚ)) 1.3)).toNat)
       else (255, 255, 255)) :=
  derived_shades_formula fsBright FPath.coverBg pxBright (200, 0, 0) 500
    [((152, 152, 96), 4988 / 19)] rfl validColorsOf_pxBright

/-- Counterexample to claim C8 as stated: on `pxBright` the single
highest-scoring surviving color is `(200, 0, 0)` (head of the sorted
extraction), whose claimed bright normalization is `(255, 0, 0)` — yet
`get_brightest_color` returns `(197, 197, 124)`, the boost of the
different, max-channel-sum color `(152, 152, 96)`. -/
theorem bright_shade_not_from_top_color :
    validColorsOf pxBright = [((200, 0, 0), 500), ((152, 152, 96), 4988 / 19)] ∧
    get_brightest_color fsBright FPath.coverBg = (197, 197, 124) ∧
    (min 255 (pyTrunc ((200 : ℚ) * min ((255 : ℚ) / 200) 1.3)).toNat,
     min 255 (pyTrunc ((0 : ℚ) * min ((255 : ℚ) / 200) 1.3)).toNat,
     min 255 (pyTrunc ((0 : ℚ) * min ((255 : ℚ) / 200) 1.3)).toNat) =
      ((255 : ℕ), (0 : ℕ), (0 : ℕ)) := by
  have ho : extract_quantized_colors fsBright FPath.coverBg =
      .ok [((200, 0, 0), 500), ((152, 152, 96), 4988 / 19)] := by
    simp only [extract_quantized_colors, openImage, fsBright, Except.map,
      validColorsOf_pxBright]
  have hmin : min ((255 : ℚ) / 152) 1.3 = 13 / 10 := by
    rw [min_def]
    norm_num
  have hmin2 : min ((255 : ℚ) / 200) 1.3 = 51 / 40 := by
    rw [min_def]
    norm_num
  refine ⟨validColorsOf_pxBright, ?_, ?_⟩
  · unfold get_brightest_color
    rw [ho]
    norm_num [maxByKeyAux, maxC, hmin]
    rw [pyTrunc_eq_of (q := 988 / 5) (z := 197) (by norm_num) (by norm_num)
        (by norm_num),
      pyTrunc_eq_of (q := 624 / 5) (z := 124) (by norm_num) (by norm_num)
        (by norm_num)]
    exact ⟨rfl, rfl⟩
  · rw [hmin2]
    norm_num
    rw [pyTrunc_eq_of (q := 255) (z := 255) (by norm_num) (by norm_num)
        (by norm_num),
      pyTrunc_eq_of (q := 0) (z := 0) (by norm_num) (by norm_num) (by norm_num)]
    exact ⟨by decide, by decide⟩

/-- Every group emitted by the greedy wrap loop either measures within
`max_width` (its last word was admitted by the width test on the whole
joined line) or is a single word drawn from `W`. -/
theorem wrapGroups_mem (measure : List Char → ℤ) (max_width : ℤ)
    (W : List (List Char)) :
    ∀ (ws cur : List (List Char)),
      (cur = [] ∨ measure (joinSp cur) ≤ max_width ∨ ∃ w ∈ W, cur = [w]) →
      (∀ w ∈ ws, w ∈ W) →
      ∀ g ∈ wrapGroups measure max_width ws cur,
        measure (joinSp g) ≤ max_width ∨ ∃ w ∈ W, g = [w]
  | [], cur, hcur, _, g, hg => by
    unfold wrapGroups at hg
    split at hg
    · simp at hg
    next hne =>
      simp only [List.mem_singleton] at hg
      subst hg
      rcases hcur with h | h | h
      · exact absurd h hne
      · exact Or.inl h
      · exact Or.inr h
  | word :: ws, cur, hcur, hws, g, hg => by
    unfold wrapGroups at hg
    split at hg
    next hfit =>
      exact wrapGroups_mem measure max_width W ws (cur ++ [word])
        (Or.inr (Or.inl hfit)) (fun w hw => hws w (List.mem_cons_of_mem _ hw)) g hg
    next hnofit =>
      split at hg
      next hemp =>
        exact wrapGroups_mem measure max_width W ws [word]
          (Or.inr (Or.inr ⟨word, hws word (List.mem_cons_self word ws), rfl⟩))
          (fun w hw => hws w (List.mem_cons_of_mem _ hw)) g hg
      next hne =>
        rcases List.mem_cons.mp hg with hgc | hg'
        · subst hgc
          rcases hcur with h | h | h
          · exact absurd h hne
          · exact Or.inl h
          · exact Or.inr h
        · exact wrapGroups_mem measure max_width W ws [word]
            (Or.inr (Or.inr ⟨word, hws word (List.mem_cons_self word ws), rfl⟩))
            (fun w hw => hws w (List.mem_cons_of_mem _ hw)) g hg'

/-- Claim C4: `wrap_text` never emits a line whose measured width exceeds
`max_width`, except that a line consisting of a single word which alone
measures wider than `max_width` is emitted unsplit (no hyphenation).
`measure` is the pixel-width function `draw.textbbox` induced by the
font. -/
theorem wrap_text_width_bound (measure : List Char → ℤ) (max_width : ℤ)
    (text : List Char) (line : List Char)
    (hline : line ∈ wrap_text measure max_width text) :
    measure line ≤ max_width ∨
      (line ∈ splitWs text ∧ max_width < measure line) := by
  unfold wrap_text at hline
  obtain ⟨g, hg, rfl⟩ := List.mem_map.mp hline
  rcases wrapGroups_mem measure max_width (splitWs text) (splitWs text) []
      (Or.inl rfl) (fun _ h => h) g hg with h | ⟨w, hw, rfl⟩
  · exact Or.inl h
  · by_cases hle : measure (joinSp [w]) ≤ max_width
    · exact Or.inl hle
    · exact Or.inr ⟨by simpa [joinSp] using hw, by simpa [joinSp] using not_le.mp hle⟩

/-- Witness for `wrap_text_width_bound`: with character-count measure and
`max_width = 5`, the text `"ab cd"` wraps to the single line `"ab cd"`,
which satisfies the bound. -/
theorem wrap_text_width_bound_witness :
    ("ab cd".toList.length : ℤ) ≤ 5 ∨
      ("ab cd".toList ∈ splitWs "ab cd".toList ∧
        (5 : ℤ) < ("ab cd".toList.length : ℤ)) :=
  wrap_text_width_bound (fun l => (l.length : ℤ)) 5 "ab cd".toList
    "ab cd".toList (by decide)

/-- Flattening the greedy wrap groups recovers `cur ++ ws`: no word is
lost, duplicated, or reordered. -/
theorem wrapGroups_join (measure : List Char → ℤ) (max_width : ℤ) :
    ∀ (ws cur : List (List Char)),
      (wrapGroups measure max_width ws cur).flatten = cur ++ ws
  | [], cur => by
    unfold wrapGroups
    split
    next h => simp [h]
    next h => simp
  | word :: ws, cur => by
    unfold wrapGroups
    split
    next hfit =>
      rw [wrapGroups_join measure max_width ws (cur ++ [word])]
      simp
    next hnofit =>
      split
      next hemp =>
        rw [wrapGroups_join measure max_width ws [word], hemp]
        simp
      next hne =>
        simp only [List.flatten_cons]
        rw [wrapGroups_join measure max_width ws [word]]
        simp

/-- The greedy wrap loop never emits an empty group: the two emission
sites are both guarded by `current_line` being non-empty, and every
recursive call carries a non-empty or freshly seeded line. -/
theorem wrapGroups_ne_nil (measure : List Char → ℤ) (max_width : ℤ) :
    ∀ (ws cur : List (List Char)), ∀ g ∈ wrapGroups measure max_width ws cur,
      g ≠ []
  | [], cur, g, hg => by
    unfold wrapGroups at hg
    split at hg
    · simp at hg
    next hne =>
      simp only [List.mem_singleton] at hg
      subst hg
      exact hne
  | word :: ws, cur, g, hg => by
    unfold wrapGroups at hg
    split at hg
    next hfit => exact wrapGroups_ne_nil measure max_width ws (cur ++ [word]) g hg
    next hnofit =>
      split at hg
      next hemp => exact wrapGroups_ne_nil measure max_width ws [word] g hg
      next hne =>
        rcases List.mem_cons.mp hg with hgc | hg'
        · subst hgc; exact hne
        · exact wrapGroups_ne_nil measure max_width ws [word] g hg'

/-- `joinSp` distributes over append of non-empty group lists, inserting
one separating space. -/
theorem joinSp_append :
    ∀ (a b : List (List Char)), a ≠ [] → b ≠ [] →
      joinSp (a ++ b) = joinSp a ++ ' ' :: joinSp b
  | [], _, ha, _ => absurd rfl ha
  | [w], b, _, hb => by
    cases b with
    | nil => exact absurd rfl hb
    | cons b1 bs => simp [joinSp]
  | w :: w' :: ws, b, _, hb => by
    have ih := joinSp_append (w' :: ws) b (by simp) hb
    rw [show (w :: w' :: ws) ++ b = w :: w' :: (ws ++ b) from by simp]
    simp only [joinSp]
    rw [List.cons_append] at ih
    rw [ih]
    simp

/-- The flattening of a non-empty list of non-empty groups is
non-empty. -/
theorem flatten_ne_nil_of (gs : List (List (List Char))) (hne : gs ≠ [])
    (h : ∀ g ∈ gs, g ≠ []) : gs.flatten ≠ [] := by
  cases gs with
  | nil => exact absurd rfl hne
  | cons g gs =>
    have hg := h g (List.mem_cons_self g gs)
    cases g with
    | nil => exact absurd rfl hg
    | cons w ws => simp

/-- Joining the per-group joins with single spaces equals joining the
flattened word list with single spaces, for non-empty groups — the
space-structure of `' '.join(lines)` coincides with one flat join. -/
theorem joinSp_map (gs : List (List (List Char))) (h : ∀ g ∈ gs, g ≠ []) :
    joinSp (gs.map joinSp) = joinSp gs.flatten := by
  induction gs with
  | nil => rfl
  | cons g gs ih =>
    cases gs with
    | nil => simp [joinSp]
    | cons g' gs' =>
      have hg : g ≠ [] := h g (List.mem_cons_self _ _)
      have hrest : ∀ x ∈ g' :: gs', x ≠ [] :=
        fun x hx => h x (List.mem_cons_of_mem _ hx)
      have hne : (g' :: gs').flatten ≠ [] :=
        flatten_ne_nil_of _ (by simp) hrest
      simp only [List.map_cons, List.flatten_cons]
      rw [show joinSp (joinSp g :: joinSp g' :: (gs'.map joinSp)) =
            joinSp g ++ ' ' :: joinSp (joinSp g' :: gs'.map joinSp) from rfl]
      rw [← List.map_cons, ih hrest]
      rw [show g' ++ gs'.flatten = (g' :: gs').flatten from by simp]
      rw [joinSp_append g ((g' :: gs').flatten) hg hne]

/-- `splitWsAux` passes over a whitespace-free chunk by accumulating it
onto the current word. -/
theorem splitWsAux_no_ws :
    ∀ (w rest cur : List Char), (∀ c ∈ w, ¬ c.isWhitespace = true) →
      splitWsAux (w ++ rest) cur = splitWsAux rest (cur ++ w)
  | [], rest, cur, _ => by simp
  | c :: w', rest, cur, hw => by
    have hc : ¬ c.isWhitespace = true := hw c (List.mem_cons_self _ _)
    simp only [List.cons_append, splitWsAux, if_neg hc, List.append_eq]
    rw [splitWsAux_no_ws w' rest (cur ++ [c])
      (fun d hd => hw d (List.mem_cons_of_mem _ hd))]
    simp

/-- Every word produced by `str.split()` is non-empty and
whitespace-free. -/
theorem splitWsAux_elements :
    ∀ (t cur : List Char), (∀ c ∈ cur, ¬ c.isWhitespace = true) →
      ∀ w ∈ splitWsAux t cur, w ≠ [] ∧ ∀ c ∈ w, ¬ c.isWhitespace = true
  | [], cur, hcur, w, hw => by
    unfold splitWsAux at hw
    split at hw
    · simp at hw
    next hne =>
      simp only [List.mem_singleton] at hw
      subst hw
      exact ⟨hne, hcur⟩
  | c :: cs, cur, hcur, w, hw => by
    unfold splitWsAux at hw
    split at hw
    next hws =>
      split at hw
      next hemp => exact splitWsAux_elements cs [] (by simp) w hw
      next hne =>
        rcases List.mem_cons.mp hw with hwc | hw'
        · subst hwc
          exact ⟨hne, hcur⟩
        · exact splitWsAux_elements cs [] (by simp) w hw'
    next hnws =>
      exact splitWsAux_elements cs (cur ++ [c])
        (by
          intro d hd
          rcases List.mem_append.mp hd with h | h
          · exact hcur d h
          · simp only [List.mem_singleton] at h
            subst h
            exact hnws) w hw

/-- `str.split()` is a left inverse of `' '.join` on lists of non-empty,
whitespace-free words. -/
theorem splitWs_joinSp :
    ∀ (ws : List (List Char)),
      (∀ w ∈ ws, w ≠ [] ∧ ∀ c ∈ w, ¬ c.isWhitespace = true) →
      splitWs (joinSp ws) = ws
  | [], _ => rfl
  | [w], h => by
    obtain ⟨hne, hnws⟩ := h w (List.mem_cons_self _ _)
    unfold splitWs
    rw [show joinSp [w] = w ++ [] from by simp [joinSp]]
    rw [splitWsAux_no_ws w [] [] hnws]
    simp [splitWsAux, hne]
  | w :: w' :: ws, h => by
    obtain ⟨hne, hnws⟩ := h w (List.mem_cons_self _ _)
    have hrest := fun x hx => h x (List.mem_cons_of_mem _ hx)
    unfold splitWs
    rw [show joinSp (w :: w' :: ws) = w ++ ' ' :: joinSp (w' :: ws) from rfl]
    rw [splitWsAux_no_ws w (' ' :: joinSp (w' :: ws)) [] hnws]
    simp only [List.nil_append, splitWsAux, if_pos (by decide : (' ').isWhitespace = true), if_neg hne]
    rw [show splitWsAux (joinSp (w' :: ws)) [] = splitWs (joinSp (w' :: ws)) from rfl]
    rw [splitWs_joinSp (w' :: ws) hrest]

/-- Claim C10: `wrap_text` loses and duplicates no words and preserves
their order — splitting the concatenation of the returned lines (joined
by single spaces) on whitespace yields exactly the word sequence of the
input text. -/
theorem wrap_text_preserves_words (measure : List Char → ℤ) (max_width : ℤ)
    (text : List Char) :
    splitWs (joinSp (wrap_text measure max_width text)) = splitWs text := by
  unfold wrap_text
  rw [joinSp_map _ (wrapGroups_ne_nil measure max_width (splitWs text) [])]
  rw [wrapGroups_join measure max_width (splitWs text) []]
  rw [List.nil_append]
  exact splitWs_joinSp (splitWs text)
    (fun w hw => splitWsAux_elements text [] (by simp) w hw)

/-- `sqrtQ 0 = 0` (shared with IEEE `sqrt`). -/
theorem sqrtQ_zero : sqrtQ 0 = 0 := by
  simp [sqrtQ]

/-- `sqrtQ` is positive from `1/2` up (shared with IEEE `sqrt`). -/
theorem sqrtQ_pos (q : ℚ) (h : 1 / 2 ≤ q) : 0 < sqrtQ q := by
  unfold sqrtQ
  rw [if_neg (not_le.mpr (by linarith))]
  have h1 : (1 : ℕ) ≤ ⌊q * 10 ^ 12⌋₊ := by
    apply Nat.le_floor
    push_cast
    nlinarith
  have h2 : 0 < Nat.sqrt ⌊q * 10 ^ 12⌋₊ := Nat.sqrt_pos.mpr h1
  have h3 : (0 : ℚ) < (Nat.sqrt ⌊q * 10 ^ 12⌋₊ : ℚ) := by exact_mod_cast h2
  positivity

/-- At the corner pixel `(0, 0)` the distance from the centre equals the
centre-to-corner normalizer exactly, so the clamped normalized distance
is exactly 1 — independently of the precision of the square-root
model. -/
theorem normDist_corner (w h : ℕ) (hw : 1 ≤ w) (hh : 1 ≤ h) :
    normDist w h 0 0 = 1 := by
  simp only [normDist]
  have harg : ((0 : ℕ) - (w : ℚ) / 2) ^ 2 + ((0 : ℕ) - (h : ℚ) / 2) ^ 2 =
      ((w : ℚ) / 2) ^ 2 + ((h : ℚ) / 2) ^ 2 := by
    push_cast
    ring
  rw [harg]
  have hw' : (1 : ℚ) ≤ (w : ℚ) := by exact_mod_cast hw
  have hh' : (1 : ℚ) ≤ (h : ℚ) := by exact_mod_cast hh
  have hm : (1 : ℚ) / 2 ≤ ((w : ℚ) / 2) ^ 2 + ((h : ℚ) / 2) ^ 2 := by nlinarith
  rw [div_self (ne_of_gt (sqrtQ_pos _ hm))]
  norm_num

/-- When both dimensions are even, the pixel `(w/2, h/2)` sits exactly at
the geometric centre and its clamped normalized distance is 0. -/
theorem normDist_center (w h : ℕ) (hwe : w % 2 = 0) (hhe : h % 2 = 0) :
    normDist w h (w / 2) (h / 2) = 0 := by
  simp only [normDist]
  have hcx : ((w / 2 : ℕ) : ℚ) = (w : ℚ) / 2 :=
    Nat.cast_div (Nat.dvd_of_mod_eq_zero hwe) (by norm_num)
  have hcy : ((h / 2 : ℕ) : ℚ) = (h : ℚ) / 2 :=
    Nat.cast_div (Nat.dvd_of_mod_eq_zero hhe) (by norm_num)
  rw [hcx, hcy]
  rw [show ((w : ℚ) / 2 - (w : ℚ) / 2) ^ 2 + ((h : ℚ) / 2 - (h : ℚ) / 2) ^ 2 =
      0 from by ring]
  rw [sqrtQ_zero, zero_div]
  norm_num

/-- The 8-bit encoding of an opacity in `[0, 1]` differs from the exact
scaled value by at most 1 (the cast truncates, and the modulo-256 wrap is
the identity in range). -/
theorem clampByte_abs (v : ℚ) (h0 : 0 ≤ v) (h1 : v ≤ 1) :
    |(((pyTrunc (v * 255) % 256).toNat : ℚ)) - v * 255| ≤ 1 := by
  have hz0 : (0 : ℚ) ≤ v * 255 := by nlinarith
  rw [pyTrunc_eq_floor hz0]
  have hfl0 : 0 ≤ ⌊v * 255⌋ := Int.floor_nonneg.mpr hz0
  have hfl255 : ⌊v * 255⌋ < 256 := by
    have h2 : ⌊v * 255⌋ ≤ ⌊(255 : ℚ)⌋ := Int.floor_le_floor (by nlinarith)
    have h3 : ⌊(255 : ℚ)⌋ = 255 := by norm_num
    omega
  rw [Int.emod_eq_of_lt hfl0 hfl255]
  have hcast : ((⌊v * 255⌋.toNat : ℕ) : ℚ) = ((⌊v * 255⌋ : ℤ) : ℚ) := by
    exact_mod_cast congrArg (fun z => ((z : ℤ) : ℚ)) (Int.toNat_of_nonneg hfl0)
  rw [hcast]
  rw [abs_le]
  constructor
  · have := Int.lt_floor_add_one (v * 255)
    linarith
  · have := Int.floor_le (v * 255)
    linarith

/-- Claim C3 (amended): for opacities in `[0, 1]`, the radial gradient
mask's alpha at the farthest corner pixel `(0, 0)` equals
`edgeOpacity * 255` within rounding (±1, the cast truncates); the alpha
at the pixel `(w/2, h/2)` equals `centerOpacity * 255` within rounding
**provided both dimensions are even** — only then does a pixel sit
exactly at the geometric centre (for odd dimensions the pixel nearest the
centre can take any intermediate value, and the 1×1 mask's single pixel
takes the edge opacity: see
`radial_gradient_center_claim_false`); and every pixel's alpha is the
truncated 8-bit encoding of the linear interpolation between the two
opacities by the clamped normalized centre distance. -/
theorem radial_gradient_endpoints (width height : ℕ) (c e : ℚ)
    (hw : 1 ≤ width) (hh : 1 ≤ height)
    (hc0 : 0 ≤ c) (hc1 : c ≤ 1) (he0 : 0 ≤ e) (he1 : e ≤ 1) :
    (width % 2 = 0 → height % 2 = 0 →
      |((create_radial_gradient_mask width height c e (width / 2) (height / 2) : ℕ) : ℚ)
        - c * 255| ≤ 1) ∧
    |((create_radial_gradient_mask width height c e 0 0 : ℕ) : ℚ) - e * 255| ≤ 1 ∧
    ∀ x y, create_radial_gradient_mask width height c e x y =
      ((pyTrunc ((c + (e - c) * normDist width height x y) * 255)) % 256).toNat := by
  refine ⟨fun hwe hhe => ?_, ?_, fun x y => rfl⟩
  · have hn := normDist_center width height hwe hhe
    simp only [create_radial_gradient_mask]
    rw [hn, show c + (e - c) * 0 = c from by ring]
    exact clampByte_abs c hc0 hc1
  · have hn := normDist_corner width height hw hh
    simp only [create_radial_gradient_mask]
    rw [hn, show c + (e - c) * 1 = e from by ring]
    exact clampByte_abs e he0 he1

/-- Witness for `radial_gradient_endpoints` at the 2×2 mask with
`centerOpacity = 0`, `edgeOpacity = 1`. -/
theorem radial_gradient_endpoints_witness :
    |((create_radial_gradient_mask 2 2 0 1 (2 / 2) (2 / 2) : ℕ) : ℚ) - 0 * 255| ≤ 1 ∧
    |((create_radial_gradient_mask 2 2 0 1 0 0 : ℕ) : ℚ) - 1 * 255| ≤ 1 :=
  ⟨(radial_gradient_endpoints 2 2 0 1 (by norm_num) (by norm_num) (by norm_num)
      (by norm_num) (by norm_num) (by norm_num)).1 rfl rfl,
   (radial_gradient_endpoints 2 2 0 1 (by norm_num) (by norm_num) (by norm_num)
      (by norm_num) (by norm_num) (by norm_num)).2.1⟩

/-- Counterexample to claim C3 as stated: for the 1×1 mask with
`centerOpacity = 0.03` and `edgeOpacity = 0.15`, the only pixel — which
is the pixel nearest the centre — has normalized distance exactly 1 (its
distance to the centre *is* the centre-to-corner distance), so its alpha
is `trunc(0.15 * 255) = 38`, nowhere near `round(0.03 * 255) = 8`. -/
theorem radial_gradient_center_claim_false :
    create_radial_gradient_mask 1 1 (3 / 100) (15 / 100) 0 0 = 38 ∧
    ¬ |((38 : ℕ) : ℚ) - (3 / 100) * 255| ≤ 1 := by
  constructor
  · have hn : normDist 1 1 0 0 = 1 := normDist_corner 1 1 le_rfl le_rfl
    simp only [create_radial_gradient_mask]
    rw [hn]
    rw [show ((3 : ℚ) / 100 + (15 / 100 - 3 / 100) * 1) * 255 = 153 / 4 from by
      norm_num]
    rw [pyTrunc_eq_of (q := 153 / 4) (z := 38) (by norm_num) (by norm_num)
      (by norm_num)]
    rfl
  · rw [not_le, show ((38 : ℕ) : ℚ) - (3 / 100) * 255 = 607 / 20 from by norm_num,
      abs_of_nonneg (by norm_num : (0 : ℚ) ≤ 607 / 20)]
    norm_num
